import Mathlib

/-!
Verification of the syndric repository: the Question Router and Message
Converter (spec §4.1–§4.2) and the Document Extraction Utility
(src/externals/pypdf_wrapper.py), shallowly embedded in Lean 4.
-/

deriving instance DecidableEq for Except

namespace Syndric

/-- A chat turn: a mapping with a `role` string (one of "system", "user",
"assistant") and a `content` string, as produced by the UI layer. -/
structure ChatTurn where
  role : String
  content : String
deriving DecidableEq, Repr

/-- The normalized role enum of the structured-message API
(llama_index MessageRole). -/
inductive MessageRole where
  | USER
  | ASSISTANT
  | SYSTEM
deriving DecidableEq, Repr

/-- A structured message: normalized role enum plus the original content
(llama_index ChatMessage). -/
structure ChatMessage where
  role : MessageRole
  content : String
deriving DecidableEq, Repr

/-- Modelled from the spec: normalization of a role string to the role
enum used by `convert_to_chat_messages` (user→USER, assistant→ASSISTANT,
system→SYSTEM); the behavior on any other string is unspecified by the
spec, represented here by `none`. The source file src/utils.py that
implements this is absent from the repository snapshot; only its tests
are present. -/
def normalizeRole (r : String) : Option MessageRole :=
  if r = "user" then some MessageRole.USER
  else if r = "assistant" then some MessageRole.ASSISTANT
  else if r = "system" then some MessageRole.SYSTEM
  else none

/-- Modelled from the spec: the Message Converter. Given an ordered
sequence of chat turns, produce the ordered sequence of structured
messages of equal length, each output role the normalized form of the
input role string and each content copied verbatim. `none` marks the
spec-unspecified case of an unrecognized role. The source file
src/utils.py is absent from the repository snapshot. -/
def convert_to_chat_messages : List ChatTurn → Option (List ChatMessage)
  | [] => some []
  | t :: ts =>
    match normalizeRole t.role with
    | none => none
    | some r =>
      match convert_to_chat_messages ts with
      | none => none
      | some rest => some (ChatMessage.mk r t.content :: rest)

/-- The fixed configuration of the language-model client (spec §6):
model identifier, request timeout in seconds, context window in tokens. -/
structure OllamaConfig where
  model : String
  request_timeout : ℚ
  context_window : ℕ
deriving DecidableEq, Repr

/-- Modelled from the spec: the fixed configuration constants used by the
Question Router to construct the model client. -/
def ollamaConfig : OllamaConfig :=
  OllamaConfig.mk "qwen3:4b" 30 1000

/-- One invocation of the language model: the client configuration it was
constructed with and the prompt passed to `complete`. -/
structure LMCall where
  config : OllamaConfig
  prompt : String
deriving DecidableEq, Repr

/-- Modelled from the spec: the instruction text preceding the embedded
user question in the classification prompt. -/
def promptHeader : String :=
  "You are a question router. Classify the question below as property or general. Domain topics such as co-ownership charges, general assemblies, maintenance contracts and tenancy map to property; everything else maps to general.\nQuestion: "

/-- Modelled from the spec: the instruction text following the embedded
user question in the classification prompt. -/
def promptFooter : String :=
  "\nRespond with exactly one of the two tokens: property or general."

/-- Modelled from the spec: the classification prompt embedding the single
most-recent user question. -/
def routingPrompt (question : String) : String :=
  promptHeader ++ question ++ promptFooter

/-- Modelled from the spec: scan the turn sequence from the end backward
for the most recent turn with role user. -/
def findLastUser (messages : List ChatTurn) : Option ChatTurn :=
  messages.reverse.find? (fun t => t.role == "user")

/-- Modelled from the spec: the Question Router. The external language
model is a parameter `complete` mapping (configuration, prompt) to either
a response text (`Except.ok`) or a raised error (`Except.error`). The
result pairs the returned route label with the list of model invocations
made, in order. The source file src/utils.py is absent from the
repository snapshot. -/
def route_message (complete : OllamaConfig → String → Except String String)
    (messages : List ChatTurn) : String × List LMCall :=
  match findLastUser messages with
  | none => ("general", [])
  | some t =>
    let prompt := routingPrompt t.content
    match complete ollamaConfig prompt with
    | Except.ok text => (text, [LMCall.mk ollamaConfig prompt])
    | Except.error _ => ("general", [LMCall.mk ollamaConfig prompt])

/-! ### Document Extraction Utility (src/externals/pypdf_wrapper.py) -/

/-- A PDF file as the script observes it: the file stem, and the outcome
of opening it with PdfReader. A successful open yields the list of pages,
each page being the outcome of page.extract_text(): either the extracted
text or a raised error. -/
structure PdfFile where
  stem : String
  parse : Except String (List (Except String String))
deriving DecidableEq, Repr

/-- The page marker plus page text chunk appended for one page:
"--- Page n ---\n" followed by the page text followed by "\n\n". -/
def pageChunk (n : ℕ) (t : String) : String :=
  "--- Page " ++ toString n ++ " ---\n" ++ t ++ "\n\n"

/-- The page-extraction loop: starting at page number `n`, accumulate the
marker-prefixed text of each page in order; a page whose extraction
raises aborts the whole accumulation with that error. -/
def extractTextAux : ℕ → List (Except String String) → Except String String
  | _, [] => Except.ok ""
  | n, p :: ps =>
    match p with
    | Except.error e => Except.error e
    | Except.ok t =>
      match extractTextAux (n + 1) ps with
      | Except.error e => Except.error e
      | Except.ok rest => Except.ok (pageChunk n t ++ rest)

/-- Processing of one PDF inside the try block: open the reader, then run
the page-extraction loop with page numbers starting at 1. Any error from
opening or from a page extraction propagates as the error of the file. -/
def processPdf (f : PdfFile) : Except String String :=
  match f.parse with
  | Except.error e => Except.error e
  | Except.ok pages => extractTextAux 1 pages

/-- One file written to the output directory: its name, its content, and
the encoding passed to `open`. -/
structure FileOut where
  name : String
  content : String
  encoding : String
deriving DecidableEq, Repr

/-- The observable state of the script: whether the output directory
exists, the files written to it in order, and the error messages printed
by the except branch. -/
structure ScriptState where
  outputDirExists : Bool
  written : List FileOut
  errors : List String
deriving DecidableEq, Repr

/-- One iteration of the per-PDF loop: on success, write the extracted
text to stem.txt with encoding "utf-8"; on a caught exception, print the
error message and continue. -/
def step (s : ScriptState) (f : PdfFile) : ScriptState :=
  match processPdf f with
  | Except.ok text =>
    { s with written := s.written ++ [FileOut.mk (f.stem ++ ".txt") text "utf-8"] }
  | Except.error e =>
    { s with errors := s.errors ++ ["Error reading " ++ f.stem ++ ".pdf: " ++ e] }

/-- The script: create the output directory if it does not exist
(mkdir with parents and exist_ok), then process each PDF file in turn. -/
def runScript (_dirExists : Bool) (files : List PdfFile) : ScriptState :=
  files.foldl step (ScriptState.mk true [] [])

/-- The file-write outcome of one PDF, as an Option: the written file on
success, nothing on a caught error. -/
def fileOutcome (f : PdfFile) : Option FileOut :=
  match processPdf f with
  | Except.ok text => some (FileOut.mk (f.stem ++ ".txt") text "utf-8")
  | Except.error _ => none

/-- The printed error line of one PDF, as an Option: the message on a
caught error, nothing on success. -/
def errorLine (f : PdfFile) : Option String :=
  match processPdf f with
  | Except.ok _ => none
  | Except.error e => some ("Error reading " ++ f.stem ++ ".pdf: " ++ e)

/-- Spec-style description of the full extracted text of a list of page
texts: the concatenation, over pages enumerated from 1 in order, of the
page marker chunk of each page. -/
def pagesText (ts : List String) : String :=
  ((ts.enumFrom 1).map (fun p => pageChunk p.1 p.2)).foldr (· ++ ·) ""

/-- The pointwise correspondence the Message Converter must establish
between an input chat turn and its output structured message: content
copied verbatim, and the role string mapped to the matching enum value
(user→USER, assistant→ASSISTANT, system→SYSTEM). -/
def convRel (t : ChatTurn) (m : ChatMessage) : Prop :=
  m.content = t.content ∧
  (t.role = "user" → m.role = MessageRole.USER) ∧
  (t.role = "assistant" → m.role = MessageRole.ASSISTANT) ∧
  (t.role = "system" → m.role = MessageRole.SYSTEM)

instance (t : ChatTurn) (m : ChatMessage) : Decidable (convRel t m) := by
  unfold convRel
  infer_instance

/-! ### Helper lemmas -/

/-- When no turn of the sequence has role user, the backward scan finds
nothing. -/
theorem findLastUser_eq_none (messages : List ChatTurn)
    (h : ∀ t ∈ messages, t.role ≠ "user") : findLastUser messages = none := by
  simp only [findLastUser, List.find?_eq_none, List.mem_reverse]
  intro x hx
  simpa using h x hx

/-- When the sequence has a user turn, the backward scan finds one. -/
theorem findLastUser_isSome (messages : List ChatTurn)
    (h : ∃ t ∈ messages, t.role = "user") : (findLastUser messages).isSome := by
  obtain ⟨t, ht, hr⟩ := h
  simp only [findLastUser, List.find?_isSome, List.mem_reverse]
  exact ⟨t, ht, by simpa using hr⟩

/-- The backward scan returns the last user turn: the one with no later
user turn. -/
theorem findLastUser_append (pre post : List ChatTurn) (t : ChatTurn)
    (hu : t.role = "user") (hpost : ∀ x ∈ post, x.role ≠ "user") :
    findLastUser (pre ++ t :: post) = some t := by
  have hnone : post.reverse.find? (fun x => x.role == "user") = none := by
    simp only [List.find?_eq_none, List.mem_reverse]
    intro x hx
    simpa using hpost x hx
  simp [findLastUser, List.reverse_append, List.find?_append, hnone, hu]

/-- Claim C1: for every chat-turn sequence containing no turn with role
user (including the empty sequence), route_message returns "general" and
makes no language-model invocation. -/
theorem route_message_no_user_returns_general
    (complete : OllamaConfig → String → Except String String)
    (messages : List ChatTurn) (h : ∀ t ∈ messages, t.role ≠ "user") :
    route_message complete messages = ("general", []) := by
  unfold route_message
  rw [findLastUser_eq_none messages h]

/-- Witness for claim C1 at a concrete user-less history. -/
theorem route_message_no_user_returns_general_witness :
    (∀ t ∈ [ChatTurn.mk "system" "System prompt",
            ChatTurn.mk "assistant" "Assistant message"], t.role ≠ "user") ∧
    route_message (fun _ _ => Except.ok "property")
      [ChatTurn.mk "system" "System prompt",
       ChatTurn.mk "assistant" "Assistant message"] = ("general", []) :=
  ⟨by decide,
   route_message_no_user_returns_general _ _ (by decide)⟩

/-- Claim C2: for every chat-turn sequence with at least one user turn,
route_message makes exactly one language-model invocation, and the prompt
passed contains the content of the most recent user turn (the user turn
after which no further user turn occurs). -/
theorem route_message_invokes_once (complete : OllamaConfig → String → Except String String)
    (pre post : List ChatTurn) (t : ChatTurn)
    (hu : t.role = "user") (hpost : ∀ x ∈ post, x.role ≠ "user") :
    ((route_message complete (pre ++ t :: post)).2).length = 1 ∧
    ∀ c ∈ (route_message complete (pre ++ t :: post)).2,
      ∃ before after, c.prompt = before ++ t.content ++ after := by
  have hf : findLastUser (pre ++ t :: post) = some t :=
    findLastUser_append pre post t hu hpost
  simp only [route_message, hf]
  cases hcall : complete ollamaConfig (routingPrompt t.content) <;>
    simp only [hcall] <;>
    refine ⟨rfl, ?_⟩ <;>
    intro c hc <;>
    simp only [List.mem_singleton] at hc <;>
    subst hc <;>
    exact ⟨promptHeader, promptFooter, rfl⟩

/-- Witness for claim C2 at the concrete multi-user-turn history of the
unit tests: the prompt embeds the last user turn. -/
theorem route_message_invokes_once_witness :
    (ChatTurn.mk "user" "Parle-moi du budget de la copropriete").role = "user" ∧
    (∀ x ∈ ([] : List ChatTurn), x.role ≠ "user") ∧
    (((route_message (fun _ _ => Except.ok "property")
        ([ChatTurn.mk "system" "You are a helpful assistant",
          ChatTurn.mk "user" "Bonjour",
          ChatTurn.mk "assistant" "Bonjour! Comment puis-je vous aider?"] ++
         ChatTurn.mk "user" "Parle-moi du budget de la copropriete" :: [])).2).length = 1 ∧
     ∀ c ∈ (route_message (fun _ _ => Except.ok "property")
        ([ChatTurn.mk "system" "You are a helpful assistant",
          ChatTurn.mk "user" "Bonjour",
          ChatTurn.mk "assistant" "Bonjour! Comment puis-je vous aider?"] ++
         ChatTurn.mk "user" "Parle-moi du budget de la copropriete" :: [])).2,
       ∃ before after,
         c.prompt = before ++ "Parle-moi du budget de la copropriete" ++ after) :=
  ⟨rfl, by decide,
   route_message_invokes_once _ _ _ _ rfl (by decide)⟩

/-- Claim C3: for every chat-turn sequence with a user turn, when the
language-model invocation raises (every call of `complete` is an error),
route_message returns "general"; being a total function, it propagates no
exception to the caller. -/
theorem route_message_error_fallback
    (complete : OllamaConfig → String → Except String String)
    (messages : List ChatTurn)
    (hu : ∃ t ∈ messages, t.role = "user")
    (herr : ∀ cfg p, ∃ e, complete cfg p = Except.error e) :
    (route_message complete messages).1 = "general" := by
  obtain ⟨t, hf⟩ := Option.isSome_iff_exists.mp (findLastUser_isSome messages hu)
  obtain ⟨e, he⟩ := herr ollamaConfig (routingPrompt t.content)
  simp only [route_message, hf, he]

/-- Witness for claim C3: a model that always raises yields "general" on
a concrete one-user-turn history. -/
theorem route_message_error_fallback_witness :
    (∃ t ∈ [ChatTurn.mk "user" "Test question"], t.role = "user") ∧
    (∀ cfg p, ∃ e,
      (fun (_ : OllamaConfig) (_ : String) =>
        (Except.error "LLM error" : Except String String)) cfg p = Except.error e) ∧
    (route_message
      (fun _ _ => (Except.error "LLM error" : Except String String))
      [ChatTurn.mk "user" "Test question"]).1 = "general" :=
  ⟨by decide, fun _ _ => ⟨"LLM error", rfl⟩,
   route_message_error_fallback _ _ (by decide) (fun _ _ => ⟨"LLM error", rfl⟩)⟩

/-- Claim C4: when the language-model call succeeds, route_message
returns the response text exactly as received, for an arbitrary response
string: no trimming, case normalization or validation. -/
theorem route_message_returns_raw
    (complete : OllamaConfig → String → Except String String)
    (messages : List ChatTurn) (s : String)
    (hu : ∃ t ∈ messages, t.role = "user")
    (hok : ∀ cfg p, complete cfg p = Except.ok s) :
    (route_message complete messages).1 = s := by
  obtain ⟨t, hf⟩ := Option.isSome_iff_exists.mp (findLastUser_isSome messages hu)
  simp only [route_message, hf, hok ollamaConfig (routingPrompt t.content)]

/-- Witness for claim C4: a response that is neither of the two expected
labels, with stray spacing and casing, is returned verbatim. -/
theorem route_message_returns_raw_witness :
    (∃ t ∈ [ChatTurn.mk "user" "Test"], t.role = "user") ∧
    (∀ cfg p, (fun (_ : OllamaConfig) (_ : String) =>
      (Except.ok "  PROPERTY maybe \n" : Except String String)) cfg p =
        Except.ok "  PROPERTY maybe \n") ∧
    (route_message (fun _ _ => (Except.ok "  PROPERTY maybe \n" : Except String String))
      [ChatTurn.mk "user" "Test"]).1 = "  PROPERTY maybe \n" :=
  ⟨by decide, fun _ _ => rfl,
   route_message_returns_raw _ _ _ (by decide) (fun _ _ => rfl)⟩

/-- Claim C6: every language-model invocation made by route_message uses
the fixed client configuration: model "qwen3:4b", request timeout 30.0
seconds, context window 1000 tokens. -/
theorem route_message_fixed_config
    (complete : OllamaConfig → String → Except String String)
    (messages : List ChatTurn) (c : LMCall)
    (hc : c ∈ (route_message complete messages).2) :
    c.config.model = "qwen3:4b" ∧ c.config.request_timeout = 30 ∧
      c.config.context_window = 1000 := by
  cases hf : findLastUser messages with
  | none => simp only [route_message, hf] at hc; simp at hc
  | some t =>
    simp only [route_message, hf] at hc
    cases hcall : complete ollamaConfig (routingPrompt t.content) <;>
      simp only [hcall, List.mem_singleton] at hc <;>
      subst hc <;>
      exact ⟨rfl, rfl, rfl⟩

/-- Witness for claim C6 at a concrete history whose call list is
nonempty. -/
theorem route_message_fixed_config_witness :
    LMCall.mk ollamaConfig (routingPrompt "Question sur les charges") ∈
      (route_message (fun _ _ => Except.ok "property")
        [ChatTurn.mk "user" "Question sur les charges"]).2 ∧
    (LMCall.mk ollamaConfig (routingPrompt "Question sur les charges")).config.model
        = "qwen3:4b" ∧
    (LMCall.mk ollamaConfig
      (routingPrompt "Question sur les charges")).config.request_timeout = 30 ∧
    (LMCall.mk ollamaConfig
      (routingPrompt "Question sur les charges")).config.context_window = 1000 :=
  ⟨by simp [route_message, findLastUser, routingPrompt],
   route_message_fixed_config (fun _ _ => Except.ok "property")
     [ChatTurn.mk "user" "Question sur les charges"]
     (LMCall.mk ollamaConfig (routingPrompt "Question sur les charges"))
     (by simp [route_message, findLastUser, routingPrompt])⟩

/-- Claim C5: on any input sequence whose roles are all recognized, the
Message Converter returns a sequence of equal length related pointwise,
in order, to the input: each content copied character for character and
each role mapped to its enum (user→USER, assistant→ASSISTANT,
system→SYSTEM); the empty sequence maps to the empty sequence. -/
theorem convert_to_chat_messages_preserves (messages : List ChatTurn)
    (h : ∀ t ∈ messages,
      t.role = "user" ∨ t.role = "assistant" ∨ t.role = "system") :
    ∃ out, convert_to_chat_messages messages = some out ∧
      out.length = messages.length ∧ List.Forall₂ convRel messages out := by
  induction messages with
  | nil => exact ⟨[], rfl, rfl, List.Forall₂.nil⟩
  | cons t ts ih =>
    obtain ⟨out, hout, hlen, hrel⟩ :=
      ih (fun x hx => h x (List.mem_cons_of_mem t hx))
    rcases h t (List.mem_cons_self t ts) with h1 | h1 | h1
    · refine ⟨ChatMessage.mk MessageRole.USER t.content :: out,
        ?_, by simp [hlen], ?_⟩
      · simp [convert_to_chat_messages, normalizeRole, h1, hout]
      · exact List.Forall₂.cons
          ⟨rfl, fun _ => rfl,
           fun hr => absurd (h1.symm.trans hr) (by decide),
           fun hr => absurd (h1.symm.trans hr) (by decide)⟩ hrel
    · refine ⟨ChatMessage.mk MessageRole.ASSISTANT t.content :: out,
        ?_, by simp [hlen], ?_⟩
      · simp [convert_to_chat_messages, normalizeRole, h1, hout]
      · exact List.Forall₂.cons
          ⟨rfl, fun hr => absurd (h1.symm.trans hr) (by decide),
           fun _ => rfl,
           fun hr => absurd (h1.symm.trans hr) (by decide)⟩ hrel
    · refine ⟨ChatMessage.mk MessageRole.SYSTEM t.content :: out,
        ?_, by simp [hlen], ?_⟩
      · simp [convert_to_chat_messages, normalizeRole, h1, hout]
      · exact List.Forall₂.cons
          ⟨rfl, fun hr => absurd (h1.symm.trans hr) (by decide),
           fun hr => absurd (h1.symm.trans hr) (by decide),
           fun _ => rfl⟩ hrel

/-- Witness for claim C5 at a concrete history containing accented and
currency characters. -/
theorem convert_to_chat_messages_preserves_witness :
    (∀ t ∈ [ChatTurn.mk "system" "System prompt",
            ChatTurn.mk "user" "Quel est le montant des charges?",
            ChatTurn.mk "assistant" "Les charges sont de 150€/mois"],
      t.role = "user" ∨ t.role = "assistant" ∨ t.role = "system") ∧
    (∃ out,
      convert_to_chat_messages
        [ChatTurn.mk "system" "System prompt",
         ChatTurn.mk "user" "Quel est le montant des charges?",
         ChatTurn.mk "assistant" "Les charges sont de 150€/mois"] = some out ∧
      out.length =
        ([ChatTurn.mk "system" "System prompt",
          ChatTurn.mk "user" "Quel est le montant des charges?",
          ChatTurn.mk "assistant" "Les charges sont de 150€/mois"] :
            List ChatTurn).length ∧
      List.Forall₂ convRel
        [ChatTurn.mk "system" "System prompt",
         ChatTurn.mk "user" "Quel est le montant des charges?",
         ChatTurn.mk "assistant" "Les charges sont de 150€/mois"] out) :=
  ⟨by decide, convert_to_chat_messages_preserves _ (by decide)⟩

/-! ### Document Extraction Utility lemmas -/

/-- The per-PDF loop, started from any state, appends the successful
file writes and the printed error lines of the processed files to that
state, and leaves the directory flag unchanged. -/
theorem foldl_step_eq (files : List PdfFile) (s : ScriptState) :
    files.foldl step s =
      ScriptState.mk s.outputDirExists
        (s.written ++ files.filterMap fileOutcome)
        (s.errors ++ files.filterMap errorLine) := by
  induction files generalizing s with
  | nil => simp
  | cons f fs ih =>
    rw [List.foldl_cons, ih]
    cases hp : processPdf f <;>
      simp [step, fileOutcome, errorLine, hp]

/-- The files the script writes are exactly the successful outcomes of
the processed PDFs, in order. -/
theorem runScript_written (b : Bool) (files : List PdfFile) :
    (runScript b files).written = files.filterMap fileOutcome := by
  unfold runScript
  rw [foldl_step_eq]
  simp

/-- The error lines the script prints are exactly the caught per-file
errors, in order. -/
theorem runScript_errors (b : Bool) (files : List PdfFile) :
    (runScript b files).errors = files.filterMap errorLine := by
  unfold runScript
  rw [foldl_step_eq]
  simp

/-- After the script runs, the output directory exists, whether or not it
did before. -/
theorem runScript_dirExists (b : Bool) (files : List PdfFile) :
    (runScript b files).outputDirExists = true := by
  unfold runScript
  rw [foldl_step_eq]

/-- Page extraction over pages that all succeed yields the in-order
concatenation of marker-prefixed page texts, numbered from `n`. -/
theorem extractTextAux_ok (ts : List String) (n : ℕ) :
    extractTextAux n (ts.map Except.ok) =
      Except.ok (((ts.enumFrom n).map (fun p => pageChunk p.1 p.2)).foldr
        (· ++ ·) "") := by
  induction ts generalizing n with
  | nil => rfl
  | cons t ts ih => simp [extractTextAux, ih]

/-- Page extraction over a page list containing an extraction error
yields an error. -/
theorem extractTextAux_error (pages : List (Except String String)) (e : String)
    (h : Except.error e ∈ pages) (n : ℕ) :
    ∃ e2, extractTextAux n pages = Except.error e2 := by
  induction pages generalizing n with
  | nil => simp at h
  | cons p ps ih =>
    cases p with
    | error e3 => exact ⟨e3, rfl⟩
    | ok t =>
      have hmem : Except.error e ∈ ps := by simpa using h
      obtain ⟨e2, he2⟩ := ih hmem (n + 1)
      exact ⟨e2, by simp [extractTextAux, he2]⟩

/-- Claim C7: a PDF whose processing raises is caught inside the loop,
its error message is printed, and the batch continues: the files written
are exactly those of the surrounding PDFs, unaffected by the failure. -/
theorem script_continues_after_error (b : Bool) (pre post : List PdfFile)
    (f : PdfFile) (e : String) (h : processPdf f = Except.error e) :
    (runScript b (pre ++ f :: post)).written =
      (runScript b pre).written ++ (runScript b post).written ∧
    ("Error reading " ++ f.stem ++ ".pdf: " ++ e) ∈
      (runScript b (pre ++ f :: post)).errors := by
  have hfo : fileOutcome f = none := by simp [fileOutcome, h]
  have hel : errorLine f = some ("Error reading " ++ f.stem ++ ".pdf: " ++ e) := by
    simp [errorLine, h]
  constructor
  · rw [runScript_written, runScript_written, runScript_written,
      List.filterMap_append, List.filterMap_cons, hfo]
  · rw [runScript_errors, List.filterMap_append, List.filterMap_cons, hel]
    simp

/-- Witness for claim C7: a broken PDF between two good ones is skipped,
its message printed, and both neighbours still produce their files. -/
theorem script_continues_after_error_witness :
    processPdf (PdfFile.mk "bad" (Except.error "EOF marker not found")) =
      Except.error "EOF marker not found" ∧
    ((runScript true
        ([PdfFile.mk "a" (Except.ok [Except.ok "first"])] ++
         PdfFile.mk "bad" (Except.error "EOF marker not found") ::
         [PdfFile.mk "b" (Except.ok [Except.ok "second"])])).written =
      (runScript true [PdfFile.mk "a" (Except.ok [Except.ok "first"])]).written ++
      (runScript true [PdfFile.mk "b" (Except.ok [Except.ok "second"])]).written ∧
     ("Error reading " ++ "bad" ++ ".pdf: " ++ "EOF marker not found") ∈
       (runScript true
         ([PdfFile.mk "a" (Except.ok [Except.ok "first"])] ++
          PdfFile.mk "bad" (Except.error "EOF marker not found") ::
          [PdfFile.mk "b" (Except.ok [Except.ok "second"])])).errors) :=
  ⟨rfl, script_continues_after_error true _ _ _ _ rfl⟩

/-- Claim C8: a PDF that processes without error (every page extraction
succeeds) gets a like-named .txt file in the output list whose content is
the in-order concatenation of page marker plus page text, and the output
directory exists afterwards whether or not it existed before. -/
theorem script_writes_extracted (b : Bool) (files : List PdfFile)
    (f : PdfFile) (ts : List String)
    (hmem : f ∈ files) (hp : f.parse = Except.ok (ts.map Except.ok)) :
    FileOut.mk (f.stem ++ ".txt") (pagesText ts) "utf-8" ∈
      (runScript b files).written ∧
    (runScript b files).outputDirExists = true := by
  constructor
  · have hfo : fileOutcome f =
        some (FileOut.mk (f.stem ++ ".txt") (pagesText ts) "utf-8") := by
      simp [fileOutcome, processPdf, hp, extractTextAux_ok, pagesText]
    rw [runScript_written]
    exact List.mem_filterMap.mpr ⟨f, hmem, hfo⟩
  · exact runScript_dirExists b files

/-- Witness for claim C8: a two-page PDF with accented content produces
doc.txt with both marker-prefixed pages. -/
theorem script_writes_extracted_witness :
    PdfFile.mk "doc" (Except.ok [Except.ok "montant: 150€", Except.ok "fin"]) ∈
      [PdfFile.mk "doc" (Except.ok [Except.ok "montant: 150€", Except.ok "fin"])] ∧
    (PdfFile.mk "doc"
        (Except.ok [Except.ok "montant: 150€", Except.ok "fin"])).parse =
      Except.ok (["montant: 150€", "fin"].map Except.ok) ∧
    (FileOut.mk ("doc" ++ ".txt") (pagesText ["montant: 150€", "fin"]) "utf-8" ∈
      (runScript false
        [PdfFile.mk "doc"
          (Except.ok [Except.ok "montant: 150€", Except.ok "fin"])]).written ∧
     (runScript false
        [PdfFile.mk "doc"
          (Except.ok [Except.ok "montant: 150€", Except.ok "fin"])]).outputDirExists
       = true) :=
  ⟨by decide, rfl,
   script_writes_extracted false
     [PdfFile.mk "doc" (Except.ok [Except.ok "montant: 150€", Except.ok "fin"])]
     (PdfFile.mk "doc" (Except.ok [Except.ok "montant: 150€", Except.ok "fin"]))
     ["montant: 150€", "fin"] (by decide) rfl⟩

/-- Claim C9: the output file of a PDF is written only after every page
extracted successfully: if opening the PDF raises, or any page extraction
raises, processing of that PDF ends in an error, no output file is
produced for it, and files written for the surrounding PDFs are exactly
those of a run without it. -/
theorem script_no_output_on_failure (b : Bool) (pre post : List PdfFile)
    (f : PdfFile)
    (h : (∃ e, f.parse = Except.error e) ∨
         (∃ pages e, f.parse = Except.ok pages ∧ Except.error e ∈ pages)) :
    (∃ e2, processPdf f = Except.error e2) ∧
    (runScript b (pre ++ f :: post)).written =
      (runScript b pre).written ++ (runScript b post).written := by
  have herr : ∃ e2, processPdf f = Except.error e2 := by
    rcases h with ⟨e, he⟩ | ⟨pages, e, hpg, hin⟩
    · exact ⟨e, by simp [processPdf, he]⟩
    · obtain ⟨e2, he2⟩ := extractTextAux_error pages e hin 1
      exact ⟨e2, by simp [processPdf, hpg, he2]⟩
  obtain ⟨e2, he2⟩ := herr
  refine ⟨⟨e2, he2⟩, ?_⟩
  have hfo : fileOutcome f = none := by simp [fileOutcome, he2]
  rw [runScript_written, runScript_written, runScript_written,
    List.filterMap_append, List.filterMap_cons, hfo]

/-- Witness for claim C9: a PDF whose second page fails to extract
produces no output file and leaves the neighbouring output untouched. -/
theorem script_no_output_on_failure_witness :
    ((∃ e, (PdfFile.mk "mid"
        (Except.ok [Except.ok "page un", Except.error "bad stream"])).parse =
          Except.error e) ∨
     (∃ pages e, (PdfFile.mk "mid"
        (Except.ok [Except.ok "page un", Except.error "bad stream"])).parse =
          Except.ok pages ∧ Except.error e ∈ pages)) ∧
    ((∃ e2, processPdf (PdfFile.mk "mid"
        (Except.ok [Except.ok "page un", Except.error "bad stream"])) =
          Except.error e2) ∧
     (runScript true
        ([PdfFile.mk "a" (Except.ok [Except.ok "ok a"])] ++
         PdfFile.mk "mid"
           (Except.ok [Except.ok "page un", Except.error "bad stream"]) ::
         [])).written =
       (runScript true [PdfFile.mk "a" (Except.ok [Except.ok "ok a"])]).written ++
       (runScript true ([] : List PdfFile)).written) :=
  ⟨Or.inr ⟨[Except.ok "page un", Except.error "bad stream"], "bad stream",
     rfl, by decide⟩,
   script_no_output_on_failure true _ _ _
     (Or.inr ⟨[Except.ok "page un", Except.error "bad stream"], "bad stream",
       rfl, by decide⟩)⟩

/-- Claim C10: every file the script writes is opened with the explicit
encoding "utf-8", regardless of input or platform state. -/
theorem script_written_encoding_utf8 (b : Bool) (files : List PdfFile)
    (o : FileOut) (ho : o ∈ (runScript b files).written) :
    o.encoding = "utf-8" := by
  rw [runScript_written] at ho
  obtain ⟨f, _, hf⟩ := List.mem_filterMap.mp ho
  cases hp : processPdf f <;> simp [fileOutcome, hp] at hf
  rw [← hf]

/-- Witness for claim C10: the file written for a PDF with a non-ASCII
page carries the explicit utf-8 encoding. -/
theorem script_written_encoding_utf8_witness :
    FileOut.mk "doc.txt" "--- Page 1 ---\nprix: 150€\n\n" "utf-8" ∈
      (runScript true
        [PdfFile.mk "doc" (Except.ok [Except.ok "prix: 150€"])]).written ∧
    (FileOut.mk "doc.txt" "--- Page 1 ---\nprix: 150€\n\n" "utf-8").encoding =
      "utf-8" :=
  ⟨by decide,
   script_written_encoding_utf8 true
     [PdfFile.mk "doc" (Except.ok [Except.ok "prix: 150€"])]
     (FileOut.mk "doc.txt" "--- Page 1 ---\nprix: 150€\n\n" "utf-8")
     (by decide)⟩

end Syndric
